import Mathlib

/-!
Verification development for `simple_survey_processor.py`.

The Python source is shallowly embedded below: Python dicts become ordered
association lists (`dinsert` / `alookup` mirror insertion-order update and
lookup), the pandas `DataFrame` becomes a list of rows (each row an ordered
association list of column name to `Cell`) or, for the column-wise coercion
and fallback re-encoding steps, a list of named columns, and code paths that
can raise (`KeyError` on direct subscripts, exceptions from the SPSS writer)
return `Except`.  Machine integers are `Int`; the only numeric-string parsing
the source relies on (pandas `to_numeric` with `errors='coerce'` on cells
that are Python ints or strings) is modelled on integer literals.
-/

namespace SurveyProc

/-- A dataframe cell: an integer, a string, or a missing value
(Python `None` / pandas `NaN`). -/
inductive Cell where
  | int (n : Int)
  | str (s : String)
  | null
deriving DecidableEq, Repr

/-- Association-list lookup, mirroring Python `d.get(k)` (first matching key;
keys are unique under `dinsert`, so this is dict lookup). -/
def alookup {κ α : Type} [DecidableEq κ] (k : κ) : List (κ × α) → Option α
  | [] => none
  | (k1, v) :: rest => if k1 = k then some v else alookup k rest

/-- Association-list insert with Python dict semantics: `d[k] = v` replaces
the value in place when the key is present and appends otherwise, preserving
insertion order. -/
def dinsert {κ α : Type} [DecidableEq κ] (k : κ) (v : α) :
    List (κ × α) → List (κ × α)
  | [] => [(k, v)]
  | (k1, v1) :: rest =>
    if k1 = k then (k, v) :: rest else (k1, v1) :: dinsert k v rest

/-! ### String helpers

The handful of Python `str` operations the source uses are embedded as
structural functions over `List Char`, so every definition reduces inside the
kernel. -/

/-- Python `s.replace(c, d)` for a single-character pattern (used for
`replace('-', '_')` and `replace(' ', '_')`). -/
def replaceChar (c d : Char) (s : List Char) : List Char :=
  s.map (fun x => if x = c then d else x)

/-- Python `s.replace(pat, '')` for a non-empty pattern: remove occurrences
left to right, continuing after each removed occurrence.  The fuel argument
bounds the number of steps; each step consumes at least one character, so
fuel equal to the length of the input is always enough. -/
def removeSubFuel (pat : List Char) : Nat → List Char → List Char
  | 0, _ => []
  | _ + 1, [] => []
  | fuel + 1, c :: rest =>
    if pat ≠ [] ∧ pat.isPrefixOf (c :: rest) then
      removeSubFuel pat fuel ((c :: rest).drop pat.length)
    else
      c :: removeSubFuel pat fuel rest

/-- Python `s.replace(pat, '')` (callers only use non-empty literal patterns). -/
def removeSub (pat s : List Char) : List Char :=
  removeSubFuel pat s.length s

/-- Python `str.isalnum()`: non-empty and every character alphanumeric. -/
def pyIsAlnum (s : List Char) : Bool :=
  !s.isEmpty && s.all Char.isAlphanum

/-- Python `str.strip()`: drop leading and trailing whitespace. -/
def pyStrip (s : List Char) : List Char :=
  ((s.dropWhile Char.isWhitespace).reverse.dropWhile Char.isWhitespace).reverse

/-- Python `name.startswith('Q')`. -/
def startsWithQ (s : String) : Bool :=
  match s.toList with
  | [] => false
  | c :: _ => c = 'Q'

/-- Integer-literal fragment of Python / pandas numeric parsing: an optional
leading minus sign followed by at least one digit. -/
def digitsToNat (cs : List Char) : Option Nat :=
  if cs ≠ [] ∧ cs.all Char.isDigit then
    some (cs.foldl (fun n c => n * 10 + (c.toNat - '0'.toNat)) 0)
  else
    none

/-- Parse a cell as a number the way `pd.to_numeric(..., errors='coerce')`
treats the values this program produces (ints stay ints, integer-literal
strings parse, everything else coerces to missing). -/
def numParse : Cell → Option Int
  | Cell.int n => some n
  | Cell.str s =>
    match s.toList with
    | '-' :: rest => (digitsToNat rest).map (fun n => -(n : Int))
    | cs => (digitsToNat cs).map (fun n => (n : Int))
  | Cell.null => none

/-! ### `create_spss_variable_names` (source lines 152-182) -/

/-- Rule 1 of the sanitizer (source line 159): the key is kept unchanged when
it is at most 64 characters, has no hyphen, and — after removing underscores
and the literal tokens `OFF`, `MERK`, `CUSTOM`, `PAGE` — satisfies Python
`isalnum()`. -/
def validShortName (k : String) : Bool :=
  let cs := k.toList
  cs.length ≤ 64 && !(cs.contains '-') &&
    pyIsAlnum (removeSub "PAGE".toList (removeSub "CUSTOM".toList
      (removeSub "MERK".toList (removeSub "OFF".toList
        (removeSub "_".toList cs)))))

/-- Source line 163: `original_key.count('-') == 4 and len(original_key) == 36`. -/
def isUUIDLike (k : String) : Bool :=
  k.toList.count '-' == 4 && k.toList.length == 36

/-- Source line 170: `original_key.replace('-', '_').replace(' ', '_')[:64]`. -/
def cleanKey (k : String) : String :=
  String.mk ((replaceChar '-' '_' (replaceChar ' ' '_' k.toList)).take 64)

/-- Zero-padded ordinal, Python `f"{n:03d}"`. -/
def padZero3 (n : Nat) : String :=
  if n < 10 then "00" ++ toString n
  else if n < 100 then "0" ++ toString n
  else toString n

/-- Smallest `c ≥ c0` such that `base ++ "_" ++ toString c` is not among
`vals`, embedding the `while` loop of source lines 175-176.  The fuel bounds
the search; `vals.length + 1` candidates always contain a free one because
distinct counters give distinct names. -/
def freeSuffix (base : String) (vals : List String) : Nat → Nat → Nat
  | c0, 0 => c0
  | c0, fuel + 1 =>
    if (base ++ "_" ++ toString c0) ∈ vals then
      freeSuffix base vals (c0 + 1) fuel
    else
      c0

/-- State of the sanitizer loop: the `spss_names` dict (insertion ordered)
and the `name_counter` dict. -/
structure SanState where
  spss_names : List (String × String)
  name_counter : List (String × Nat)
deriving DecidableEq, Repr

/-- One iteration of the loop of `create_spss_variable_names` (source lines
157-180) on key `k`.  Keys come from `questions.keys()`, so each key is seen
once and the dict assignment appends a fresh entry. -/
def assignOne (st : SanState) (k : String) : SanState :=
  if validShortName k then
    { st with spss_names := st.spss_names ++ [(k, k)] }
  else if isUUIDLike k then
    let counter := ((st.spss_names.map Prod.snd).filter startsWithQ).length
    { st with spss_names := st.spss_names ++ [(k, "Q" ++ padZero3 (counter + 1))] }
  else
    let clean := cleanKey k
    let vals := st.spss_names.map Prod.snd
    if clean ∈ vals then
      let base := String.mk (clean.toList.take 60)
      let c0 := (alookup base st.name_counter).getD 1
      let c := freeSuffix base vals c0 (vals.length + 1)
      { spss_names := st.spss_names ++ [(k, base ++ "_" ++ toString c)],
        name_counter := dinsert base (c + 1) st.name_counter }
    else
      { st with spss_names := st.spss_names ++ [(k, clean)] }

/-- `create_spss_variable_names` (source lines 152-182), over the ordered
list of question keys. -/
def create_spss_variable_names (ks : List String) : List (String × String) :=
  (ks.foldl assignOne ⟨[], []⟩).spss_names

/-- Number of already-assigned names that start with `Q` (the quantity the
UUID branch of the sanitizer reads on source line 165). -/
def qCount (names : List (String × String)) : Nat :=
  ((names.map Prod.snd).filter startsWithQ).length

/-- Export-safe name in the sense of the specification's words: at most 64
characters, drawn from letters, digits and underscore.  (Spec-side predicate,
used only to compare the sanitizer's output against the spec.) -/
def specExportSafe (n : String) : Bool :=
  n.toList.length ≤ 64 && n.toList.all (fun c => c.isAlphanum || c = '_')

/-! ### `create_question_mapping` (source lines 60-150) -/

/-- A Matrix column (`element['columns']` entry): optional numeric value and
a default label text. -/
structure MatrixCol where
  value : Option Int
  text : String
deriving DecidableEq, Repr

/-- A Matrix row (`element['rows']` entry). -/
structure MatrixRow where
  id : Nat
  itemKey : Option String
  text : String
deriving DecidableEq, Repr

/-- A Radiogroup choice (`element['choices']` entry). -/
structure Choice where
  id : Nat
  value : Option Int
  text : String
deriving DecidableEq, Repr

/-- A survey schema element, discriminated by `element['@type']`.  `other`
stands for any unhandled element type (ignored by the indexer). -/
inductive Element where
  | matrix (id : Nat) (columns : List MatrixCol) (rows : List MatrixRow)
  | radiogroup (id : Nat) (itemKey : Option String) (title : String)
      (choices : List Choice)
  | number (id : Nat) (itemKey : Option String) (title : String)
      (min max : Option Int)
  | text (id : Nat) (itemKey : Option String) (title : String)
  | other (id : Nat)
deriving DecidableEq, Repr

/-- A registered question (`questions[key]` entry).  The Python dict for
Matrix / Radiogroup / Text questions simply lacks the `min` / `max` entries;
here they are `none`. -/
structure QuestionDef where
  type : String
  text : String
  id : Nat
  min : Option Int := none
  max : Option Int := none
deriving DecidableEq, Repr

/-- The mapping bundle returned by `create_question_mapping`. -/
structure Mappings where
  questions : List (String × QuestionDef)
  id_to_key : List (String × String)
  value_labels : List (String × List (Int × String))
  choice_to_key : List (String × String)
  element_to_key : List (String × String)
  measurement_types : List (String × String)
deriving DecidableEq, Repr

/-- Python truthiness of an optional string field, as used by
`if element.get('itemKey')`: `None` and `''` are both falsy. -/
def truthyKey : Option String → Option String
  | none => none
  | some s => if s = "" then none else some s

/-- Index one schema element into the mapping bundle (the body of the loop of
source lines 69-141). -/
def indexElement (m : Mappings) (e : Element) : Mappings :=
  match e with
  | Element.matrix _ columns rows =>
    let col_labels :=
      columns.foldl
        (fun acc c =>
          match c.value with
          | some v => dinsert v c.text acc
          | none => acc) []
    rows.foldl
      (fun m row =>
        match truthyKey row.itemKey with
        | some key =>
          { m with
            questions := dinsert key
              { type := "Matrix", text := row.text, id := row.id } m.questions,
            id_to_key := dinsert (toString row.id) key m.id_to_key,
            measurement_types := dinsert key "Nominal" m.measurement_types,
            value_labels :=
              if col_labels ≠ [] then dinsert key col_labels m.value_labels
              else m.value_labels }
        | none => m) m
  | Element.radiogroup id itemKey title choices =>
    match truthyKey itemKey with
    | some key =>
      let radio :=
        choices.foldl
          (fun (acc : List (Int × String) × List (String × String)) c =>
            match c.value with
            | some v =>
              (dinsert v c.text acc.1, dinsert (toString c.id) key acc.2)
            | none => acc)
          ([], m.choice_to_key)
      { m with
        questions := dinsert key
          { type := "Radiogroup", text := title, id := id } m.questions,
        id_to_key := dinsert (toString id) key m.id_to_key,
        measurement_types := dinsert key "Nominal" m.measurement_types,
        choice_to_key := radio.2,
        value_labels :=
          if radio.1 ≠ [] then dinsert key radio.1 m.value_labels
          else m.value_labels }
    | none => m
  | Element.number id itemKey title mn mx =>
    match truthyKey itemKey with
    | some key =>
      { m with
        questions := dinsert key
          { type := "Number", text := title, id := id, min := mn, max := mx }
          m.questions,
        id_to_key := dinsert (toString id) key m.id_to_key,
        element_to_key := dinsert (toString id) key m.element_to_key,
        measurement_types := dinsert key "Scale" m.measurement_types }
    | none => m
  | Element.text id itemKey title =>
    let key := (truthyKey itemKey).getD ("text_" ++ toString id)
    { m with
      questions := dinsert key
        { type := "Text", text := title, id := id } m.questions,
      element_to_key := dinsert (toString id) key m.element_to_key,
      measurement_types := dinsert key "Nominal" m.measurement_types }
  | Element.other _ => m

/-- `create_question_mapping` (source lines 60-150): walk the pages in
document order. -/
def create_question_mapping (pages : List (List Element)) : Mappings :=
  pages.foldl (fun m page => page.foldl indexElement m)
    ⟨[], [], [], [], [], []⟩

/-! ### `process_responses` (source lines 184-243) -/

/-- A raw answer record.  `type` is the `@type` discriminator; the id and
payload fields are optional because the JSON record may lack them (Python
raises `KeyError` on a direct subscript of a missing field; `.get` returns
`None`). -/
structure Answer where
  type : String
  row_id : Option Nat := none
  choice_id : Option Nat := none
  element_id : Option Nat := none
  value : Option Cell := none
  text : Option String := none
deriving DecidableEq, Repr

/-- A raw response record: `response['id']`, `response.get('createdAt')`
(already folded into a `Cell`), and `response.get('answers', [])`. -/
structure Response where
  id : Cell
  createdAt : Cell := Cell.null
  answers : List Answer := []
deriving DecidableEq, Repr

/-- One row of the output dataframe: ordered map from column name to value. -/
abbrev Row := List (String × Cell)

/-- Python `str(answer.get('choice_id'))`: a missing id stringifies to
`"None"` (which never matches a numeric index key). -/
def strOpt : Option Nat → String
  | none => "None"
  | some n => toString n

/-- A present answer value; Python treats a JSON `null` payload the same as a
missing field (`value is not None` fails for both). -/
def denull : Option Cell → Option Cell
  | some Cell.null => none
  | x => x

/-- The value stored for a `text` answer (source lines 230-234): the stripped
text when non-blank, otherwise the empty string. -/
def textValue : Option String → String
  | none => ""
  | some t =>
    let c := t.toList
    if c ≠ [] ∧ pyStrip c ≠ [] then String.mk (pyStrip c) else ""

/-- Resolve one answer to `(question_key, value)` (source lines 207-234).
Returns `Except.error ()` exactly where the Python raises: a `matrix` answer
without `row_id`, or a `number` / `text` answer without `element_id`, is a
direct subscript of a missing field (`KeyError`).  `Except.ok none` means the
answer is dropped (unknown discriminator, failed index lookup, or absent
value) and the seeded default stands. -/
def resolveAnswer (m : Mappings) (a : Answer) : Except Unit (Option (String × Cell)) :=
  if a.type = "matrix" then
    match a.row_id with
    | none => Except.error ()
    | some rid =>
      Except.ok ((alookup (toString rid) m.id_to_key).bind
        (fun k => (denull a.value).map (fun v => (k, v))))
  else if a.type = "choice" then
    Except.ok ((alookup (strOpt a.choice_id) m.choice_to_key).bind
      (fun k => (denull a.value).map (fun v => (k, v))))
  else if a.type = "number" then
    match a.element_id with
    | none => Except.error ()
    | some eid =>
      Except.ok ((alookup (toString eid) m.element_to_key).bind
        (fun k => (denull a.value).map (fun v => (k, v))))
  else if a.type = "text" then
    match a.element_id with
    | none => Except.error ()
    | some eid =>
      Except.ok ((alookup (toString eid) m.element_to_key).map
        (fun k => (k, Cell.str (textValue a.text))))
  else
    Except.ok none

/-- The column a resolved key is written to:
`spss_names.get(question_key, question_key)` (source line 238). -/
def colOf (names : List (String × String)) (k : String) : String :=
  (alookup k names).getD k

/-- Type-appropriate seeded default (source lines 201-204). -/
def defaultCell (t : String) : Cell :=
  if t = "Text" then Cell.str "" else Cell.int (-999)

/-- Seed a row with the two metadata columns and one default per registered
question (source lines 192-204).  The source reads `spss_names[key]`
directly; the `getD` fallback is unreachable because the name map is total
over the question keys it was built from (`create_total` below). -/
def seedRow (names : List (String × String)) (qs : List (String × QuestionDef))
    (r : Response) : Row :=
  qs.foldl
    (fun row kq => dinsert (colOf names kq.1) (defaultCell kq.2.type) row)
    (dinsert "created_at" r.createdAt (dinsert "response_id" r.id []))

/-- Apply one resolved answer to the row (source lines 237-239); a dropped
answer leaves the row unchanged. -/
def applyAnswer (names : List (String × String)) (row : Row)
    (o : Option (String × Cell)) : Row :=
  match o with
  | some (k, v) => dinsert (colOf names k) v row
  | none => row

/-- Sequential loop over the answer list (source lines 207-239), propagating
the first `KeyError`. -/
def processAnswers (m : Mappings) (names : List (String × String)) :
    List Answer → Row → Except Unit Row
  | [], row => Except.ok row
  | a :: as, row =>
    match resolveAnswer m a with
    | Except.error e => Except.error e
    | Except.ok o => processAnswers m names as (applyAnswer names row o)

/-- Flatten one response into one row (source lines 191-241). -/
def processOne (m : Mappings) (names : List (String × String))
    (r : Response) : Except Unit Row :=
  processAnswers m names r.answers (seedRow names m.questions r)

/-- Sequential effectful map (the `for response in responses_data` loop). -/
def mapE {α β : Type} (f : α → Except Unit β) : List α → Except Unit (List β)
  | [] => Except.ok []
  | a :: as =>
    match f a with
    | Except.error e => Except.error e
    | Except.ok b =>
      match mapE f as with
      | Except.error e => Except.error e
      | Except.ok bs => Except.ok (b :: bs)

/-- `process_responses` (source lines 184-243): build the name map from the
registry keys, then flatten every response. -/
def process_responses (responses : List Response) (m : Mappings) :
    Except Unit (List Row × List (String × String)) :=
  let names := create_spss_variable_names (m.questions.map Prod.fst)
  match mapE (processOne m names) responses with
  | Except.error e => Except.error e
  | Except.ok rows => Except.ok (rows, names)

/-- The name map `process_responses` builds internally on source line 189
(`spss_names = create_spss_variable_names(mappings['questions'])`). -/
def namesOf (m : Mappings) : List (String × String) :=
  create_spss_variable_names (m.questions.map Prod.fst)

/-- The resolved write of an answer, `none` when the answer is dropped or
raises (used to phrase last-write-wins; under a successful run it agrees
with `resolveAnswer`). -/
def resolveOpt (m : Mappings) (a : Answer) : Option (String × Cell) :=
  match resolveAnswer m a with
  | Except.ok o => o
  | Except.error _ => none

/-- The value of the last answer in list order that writes to column `col`
(searching from the back of the resolved-write list). -/
def lastWrite (names : List (String × String)) (col : String) :
    List (Option (String × Cell)) → Option Cell
  | [] => none
  | o :: os =>
    match lastWrite names col os with
    | some v => some v
    | none =>
      match o with
      | some (k, v) => if colOf names k = col then some v else none
      | none => none

/-- Well-formedness of one answer record with respect to the fields the
Python subscripts directly: `matrix` answers carry `row_id`, and `number` /
`text` answers carry `element_id`. -/
def hasRequiredIds (a : Answer) : Prop :=
  (a.type = "matrix" → a.row_id.isSome) ∧
    ((a.type = "number" ∨ a.type = "text") → a.element_id.isSome)

instance (a : Answer) : Decidable (hasRequiredIds a) := by
  unfold hasRequiredIds; infer_instance

/-! ### Dataset assembly: type coercion (source lines 282-299) -/

/-- Coercion of a text-column cell (source line 293):
`fillna('').astype(str)`. -/
def coerceTextCell : Cell → Cell
  | Cell.null => Cell.str ""
  | Cell.str s => Cell.str s
  | Cell.int n => Cell.str (toString n)

/-- Coercion of a numeric-column cell (source line 299):
`pd.to_numeric(..., errors='coerce').fillna(-999).astype(int)`. -/
def coerceNumCell (c : Cell) : Cell :=
  Cell.int ((numParse c).getD (-999))

/-- The column-coercion loop (source lines 290-299), columnwise over the
dataframe: text columns to strings, the two metadata columns untouched,
everything else to integers. -/
def coerceColumns (tv : List String) (cols : List (String × List Cell)) :
    List (String × List Cell) :=
  cols.map (fun cv =>
    if cv.1 ∈ tv then (cv.1, cv.2.map coerceTextCell)
    else if cv.1 = "response_id" ∨ cv.1 = "created_at" then cv
    else (cv.1, cv.2.map coerceNumCell))

/-! ### Fallback text re-encoding (source lines 380-400) -/

/-- Pandas `Series.unique()`: distinct values in order of first appearance. -/
def uniqueList (vs : List String) : List String :=
  vs.foldl (fun acc v => if v ∈ acc then acc else acc ++ [v]) []

/-- The comprehension `{text: idx for idx, text in enumerate(unique_texts)
if text != ''}`: walk the unique values with their enumeration index `k`,
keeping the non-empty ones. -/
def enumCodes (k : Nat) : List String → List (String × Int)
  | [] => []
  | t :: rest =>
    if t ≠ "" then (t, (k : Int)) :: enumCodes (k + 1) rest
    else enumCodes (k + 1) rest

/-- Source lines 387-389: the enumeration comprehension followed by
`text_to_code[''] = -999`.  Note the codes are the indices in the unique
list including the empty string. -/
def text_to_code (vs : List String) : List (String × Int) :=
  enumCodes 0 (uniqueList vs) ++ [("", -999)]

/-- Source line 392: `df_numeric[col].map(text_to_code).fillna(-999)`. -/
def encodeCell (ttc : List (String × Int)) (v : String) : Int :=
  (alookup v ttc).getD (-999)

/-- Re-encode one text column with its own code table. -/
def encodeColumn (vs : List String) : List Int :=
  vs.map (encodeCell (text_to_code vs))

/-- Source line 395: `{code: text for text, code in text_to_code.items()
if text != ''}` — the audit (code to text) table. -/
def code_to_text : List (String × Int) → List (Int × String)
  | [] => []
  | (t, c) :: rest =>
    if t ≠ "" then (c, t) :: code_to_text rest else code_to_text rest

/-- The code the fallback assigns to an original cell text, written as the
specification describes the mapping: the empty string is fixed to `-999`,
any other value gets its first-appearance index among the column's distinct
values (the empty string included in the indexing). -/
def codeFn (vs : List String) (t : String) : Int :=
  if t = "" then -999 else ((uniqueList vs).indexOf t : Int)

/-! ### Two-tier export (source lines 346-426) -/

/-- The payload of a cell as the fallback re-encoding sees it.  After the
coercion step every cell of a text column is a string, so this projection is
the identity on the cells the fallback actually touches. -/
def cellStr : Cell → String
  | Cell.str s => s
  | Cell.int n => toString n
  | Cell.null => "nan"

/-- The fallback re-encoding (source lines 380-397) over a column-major
dataset: every text column is replaced by its integer codes, and each text
column with a non-empty audit table contributes a `code to text` value-label
entry.  The source iterates over the `text_variables` set and skips names not
present in the dataframe; iterating over the dataframe's columns and testing
membership in `text_variables` selects the same columns. -/
def fallbackColumns (tv : List String) (cols : List (String × List Cell)) :
    List (String × List Cell) × List (String × List (Int × String)) :=
  (cols.map (fun cv =>
      if cv.1 ∈ tv then
        (cv.1, (encodeColumn (cv.2.map cellStr)).map Cell.int)
      else cv),
   cols.filterMap (fun cv =>
      if cv.1 ∈ tv then
        let c2t := code_to_text (text_to_code (cv.2.map cellStr))
        if c2t ≠ [] then some (cv.1, c2t) else none
      else none))

/-- Python `{**a, **b}`: right-biased dict merge preserving the insertion
order of `a` (source line 400). -/
def mergeVL {α : Type} (a b : List (String × α)) : List (String × α) :=
  b.foldl (fun acc kv => dinsert kv.1 kv.2 acc) a

/-- The data the assembler exposes to the exporters: the coerced dataset and
its metadata (column labels, value labels, measurement tags). -/
structure AssembledData where
  df : List (String × List Cell)
  column_labels : List (String × String)
  value_labels : List (String × List (Int × String))
  measurement : List (String × String)
deriving DecidableEq, Repr

/-- Outcome of the two-tier export attempt. -/
structure ExportResult where
  /-- The assembler's bindings after the export phase. -/
  data : AssembledData
  /-- The dataset handed to the successful write, `none` when both writes
  failed. -/
  written : Option (List (String × List Cell))
  /-- The audit (text to code) value-label tables produced by the fallback. -/
  text_value_labels : List (String × List (Int × String))
  /-- The merged value-label set handed to the fallback write. -/
  combined_value_labels : Option (List (String × List (Int × String)))
deriving DecidableEq, Repr

/-- The two-tier export attempt (source lines 346-426), parameterized by the
two external writer calls (`pyreadstat.write_sav` on the coerced dataset and
on the re-encoded one).  The first `except` triggers the fallback; the second
`except` prints a note and falls through, so the phase itself never
propagates an error — every branch returns `Except.ok`. -/
def exportPhase (w1 w2 : List (String × List Cell) → Except String Unit)
    (tv : List String) (d : AssembledData) : Except String ExportResult :=
  match w1 d.df with
  | Except.ok _ =>
    Except.ok
      { data := d, written := some d.df, text_value_labels := [],
        combined_value_labels := none }
  | Except.error _ =>
    match w2 (fallbackColumns tv d.df).1 with
    | Except.ok _ =>
      Except.ok
        { data := d, written := some (fallbackColumns tv d.df).1,
          text_value_labels := (fallbackColumns tv d.df).2,
          combined_value_labels :=
            some (mergeVL d.value_labels (fallbackColumns tv d.df).2) }
    | Except.error _ =>
      Except.ok
        { data := d, written := none,
          text_value_labels := (fallbackColumns tv d.df).2,
          combined_value_labels :=
            some (mergeVL d.value_labels (fallbackColumns tv d.df).2) }

/-- Rewrite only the registered `min` / `max` bounds of every question,
leaving keys, types, texts, ids and all lookup indices untouched. -/
def setBounds (f g : String → Option Int) (m : Mappings) : Mappings :=
  { m with
    questions := m.questions.map
      (fun kq => (kq.1, { kq.2 with min := f kq.1, max := g kq.1 })) }

/-! ### Concrete fixtures used to instantiate theorems with hypotheses -/

/-- A one-question registry: a single Number question with key `k` whose
element id `1` is indexed. -/
def mNum : Mappings :=
  { questions := [("k", { type := "Number", text := "t", id := 1 })],
    id_to_key := [("1", "k")], value_labels := [], choice_to_key := [],
    element_to_key := [("1", "k")], measurement_types := [("k", "Scale")] }

/-- A response whose two number answers both resolve to the column of `k`,
with values 5 then 9. -/
def rTwoNumbers : Response :=
  { id := Cell.int 1,
    answers := [{ type := "number", element_id := some 1,
                  value := some (Cell.int 5) },
                { type := "number", element_id := some 1,
                  value := some (Cell.int 9) }] }

/-- A response whose answers are malformed in the tolerated ways: unknown
discriminator, missing `choice_id`, and an unmapped `element_id`. -/
def rMalformedOk : Response :=
  { id := Cell.int 1,
    answers := [{ type := "weird" },
                { type := "choice", value := some (Cell.int 3) },
                { type := "number", element_id := some 9,
                  value := some (Cell.int 5) }] }

/-- A well-behaved schema: one Radiogroup `Q1` with choices Yes/No and one
Number `Q2` (the shape of the specification's Scenario A). -/
def pagesW3 : List (List Element) :=
  [[Element.radiogroup 1 (some "Q1") "Quest1"
      [{ id := 11, value := some 1, text := "Yes" },
       { id := 12, value := some 2, text := "No" }],
    Element.number 2 (some "Q2") "Quest2" none none]]

/-- The registry built from `pagesW3`. -/
def mW3 : Mappings := create_question_mapping pagesW3

/-- A response selecting the `No` choice of `Q1` and leaving `Q2`
unanswered. -/
def rW3 : Response :=
  { id := Cell.int 1,
    answers := [{ type := "choice", choice_id := some 12,
                  value := some (Cell.int 2) }] }

/-- A schema whose two question keys collide after sanitization: a Text
question keyed `a-b` and a Number question keyed `a_b`. -/
def pagesC3 : List (List Element) :=
  [[Element.text 1 (some "a-b") "T",
    Element.number 2 (some "a_b") "N" none none]]

/-- The registry built from `pagesC3`. -/
def mC3 : Mappings := create_question_mapping pagesC3

/-! ## Association-list lemmas -/

theorem alookup_append {κ α : Type} [DecidableEq κ] (k : κ)
    (l1 l2 : List (κ × α)) :
    alookup k (l1 ++ l2) =
      match alookup k l1 with
      | some v => some v
      | none => alookup k l2 := by
  induction l1 with
  | nil => simp [alookup]
  | cons p rest ih =>
    obtain ⟨k1, v1⟩ := p
    by_cases h : k1 = k <;> simp [alookup, h, ih]

theorem alookup_eq_none {κ α : Type} [DecidableEq κ] (k : κ)
    (l : List (κ × α)) (h : k ∉ l.map Prod.fst) : alookup k l = none := by
  induction l with
  | nil => rfl
  | cons p rest ih =>
    obtain ⟨k1, v1⟩ := p
    simp only [List.map_cons, List.mem_cons] at h
    push_neg at h
    simp [alookup, Ne.symm h.1, ih h.2]

theorem alookup_isSome_of_mem_fst {κ α : Type} [DecidableEq κ] (k : κ)
    (l : List (κ × α)) (h : k ∈ l.map Prod.fst) :
    ∃ v, alookup k l = some v := by
  induction l with
  | nil => simp at h
  | cons p rest ih =>
    obtain ⟨k1, v1⟩ := p
    by_cases hk : k1 = k
    · exact ⟨v1, by simp [alookup, hk]⟩
    · simp only [List.map_cons, List.mem_cons] at h
      rcases h with h | h
      · exact absurd h.symm hk
      · obtain ⟨v, hv⟩ := ih h
        exact ⟨v, by simp [alookup, hk, hv]⟩

theorem alookup_mem {κ α : Type} [DecidableEq κ] {k : κ} {v : α}
    {l : List (κ × α)} (h : alookup k l = some v) : (k, v) ∈ l := by
  induction l with
  | nil => simp [alookup] at h
  | cons p rest ih =>
    obtain ⟨k1, v1⟩ := p
    by_cases hk : k1 = k
    · subst hk
      simp [alookup] at h
      simp [h]
    · simp [alookup, hk] at h
      exact List.mem_cons_of_mem _ (ih h)

theorem alookup_of_mem_nodup {κ α : Type} [DecidableEq κ] {k : κ} {v : α}
    {l : List (κ × α)} (h : (k, v) ∈ l) (hn : (l.map Prod.fst).Nodup) :
    alookup k l = some v := by
  induction l with
  | nil => simp at h
  | cons p rest ih =>
    obtain ⟨k1, v1⟩ := p
    simp only [List.map_cons, List.nodup_cons] at hn
    rcases List.mem_cons.mp h with h1 | h1
    · rw [Prod.mk.injEq] at h1
      obtain ⟨rfl, rfl⟩ := h1
      simp [alookup]
    · have hk : k1 ≠ k := by
        rintro rfl
        exact hn.1 (List.mem_map.mpr ⟨(k1, v), h1, rfl⟩)
      simp [alookup, hk, ih h1 hn.2]

theorem dinsert_of_not_mem {κ α : Type} [DecidableEq κ] {k : κ} (v : α)
    {l : List (κ × α)} (h : k ∉ l.map Prod.fst) :
    dinsert k v l = l ++ [(k, v)] := by
  induction l with
  | nil => rfl
  | cons p rest ih =>
    obtain ⟨k1, v1⟩ := p
    simp only [List.map_cons, List.mem_cons] at h
    push_neg at h
    simp [dinsert, Ne.symm h.1, ih h.2]

theorem map_fst_dinsert_of_mem {κ α : Type} [DecidableEq κ] {k : κ} (v : α)
    {l : List (κ × α)} (h : k ∈ l.map Prod.fst) :
    (dinsert k v l).map Prod.fst = l.map Prod.fst := by
  induction l with
  | nil => simp at h
  | cons p rest ih =>
    obtain ⟨k1, v1⟩ := p
    by_cases hk : k1 = k
    · simp [dinsert, hk]
    · simp only [List.map_cons, List.mem_cons] at h
      rcases h with h | h
      · exact absurd h.symm hk
      · simp [dinsert, hk, ih h]

theorem alookup_dinsert {κ α : Type} [DecidableEq κ] (k k' : κ) (v : α)
    (l : List (κ × α)) :
    alookup k' (dinsert k v l) = if k' = k then some v else alookup k' l := by
  induction l with
  | nil => by_cases h : k' = k <;> simp [dinsert, alookup, h, Ne.symm]
  | cons p rest ih =>
    obtain ⟨k1, v1⟩ := p
    by_cases h1 : k1 = k
    · subst h1
      by_cases h2 : k' = k1 <;> simp [dinsert, alookup, h2, Ne.symm]
    · by_cases h2 : k1 = k'
      · subst h2
        have : ¬(k1 = k) := h1
        simp [dinsert, alookup, this, Ne.symm h1, ih]
      · simp [dinsert, alookup, h1, h2, ih]

/-! ## Sanitizer lemmas and claims C1, C2 -/

theorem assignOne_map_fst (st : SanState) (k : String) :
    (assignOne st k).spss_names.map Prod.fst =
      st.spss_names.map Prod.fst ++ [k] := by
  unfold assignOne
  split
  · simp
  · split
    · simp
    · dsimp only
      split <;> simp

theorem foldl_assignOne_map_fst (ks : List String) (st : SanState) :
    (ks.foldl assignOne st).spss_names.map Prod.fst =
      st.spss_names.map Prod.fst ++ ks := by
  induction ks generalizing st with
  | nil => simp
  | cons k rest ih =>
    simp [List.foldl_cons, ih, assignOne_map_fst]

theorem create_map_fst (ks : List String) :
    (create_spss_variable_names ks).map Prod.fst = ks := by
  simpa [create_spss_variable_names] using foldl_assignOne_map_fst ks ⟨[], []⟩

theorem create_total (ks : List String) (k : String) (h : k ∈ ks) :
    ∃ n, alookup k (create_spss_variable_names ks) = some n :=
  alookup_isSome_of_mem_fst k _ ((create_map_fst ks).symm ▸ h)

theorem isUUIDLike_not_valid (k : String) (h : isUUIDLike k = true) :
    validShortName k = false := by
  have hmem : '-' ∈ k.toList := by
    simp only [isUUIDLike, Bool.and_eq_true, beq_iff_eq] at h
    exact List.count_pos_iff.mp (by omega)
  have hcontains : k.toList.contains '-' = true := List.elem_eq_true_of_mem hmem
  simp only [validShortName]
  rw [hcontains]
  simp

/-- C1: the sanitizer is total — every registered key receives a name.  The
original claim also asserted injectivity and the 64-character
letters/digits/underscore charset; both fail on the code (see the
counterexample), so only totality remains. -/
theorem claim1_sanitizer_total (ks : List String) (k : String) (h : k ∈ ks) :
    ∃ n, alookup k (create_spss_variable_names ks) = some n :=
  create_total ks k h

theorem claim1_witness :
    "a_b" ∈ ["a-b", "a_b"] ∧
      ∃ n, alookup "a_b" (create_spss_variable_names ["a-b", "a_b"]) = some n :=
  ⟨by decide, claim1_sanitizer_total ["a-b", "a_b"] "a_b" (by decide)⟩

/-- C1 counterexample: the distinct keys `"a-b"` and `"a_b"` both receive the
name `"a_b"` (injectivity fails), and the key `"x!"` is kept unchanged even
though it contains a character outside letters/digits/underscore (the charset
guarantee fails). -/
theorem claim1_counterexample :
    alookup "a-b" (create_spss_variable_names ["a-b", "a_b"]) = some "a_b" ∧
      alookup "a_b" (create_spss_variable_names ["a-b", "a_b"]) = some "a_b" ∧
      "a-b" ≠ "a_b" ∧
      alookup "x!" (create_spss_variable_names ["x!"]) = some "x!" ∧
      specExportSafe "x!" = false := by
  decide

/-- C2: when the sanitizer reaches a UUID-shaped key, the ordinal of the
assigned placeholder is one more than the number of ALL previously assigned
names that start with `Q` — names kept by the already-valid rule or produced
by the fallback rule count too, not only previously assigned placeholders.
(The original claim, that the ordinal counts only placeholders and is
independent of non-UUID keys, fails: see the counterexample.) -/
theorem claim2_uuid_counter (pre : List String) (k : String)
    (h1 : isUUIDLike k = true) (h2 : k ∉ pre) :
    alookup k (create_spss_variable_names (pre ++ [k])) =
      some ("Q" ++ padZero3 (qCount (create_spss_variable_names pre) + 1)) := by
  have hstep :
      create_spss_variable_names (pre ++ [k]) =
        (assignOne (pre.foldl assignOne ⟨[], []⟩) k).spss_names := by
    simp [create_spss_variable_names, List.foldl_append]
  set S := pre.foldl assignOne ⟨[], []⟩ with hS
  have hvalid : validShortName k = false := isUUIDLike_not_valid k h1
  have hassign :
      (assignOne S k).spss_names =
        S.spss_names ++
          [(k, "Q" ++ padZero3
            (((S.spss_names.map Prod.snd).filter startsWithQ).length + 1))] := by
    unfold assignOne
    simp [hvalid, h1]
  have hfst : S.spss_names.map Prod.fst = pre := by
    simpa using foldl_assignOne_map_fst pre ⟨[], []⟩
  have hnone : alookup k S.spss_names = none :=
    alookup_eq_none k _ (hfst ▸ h2)
  rw [hstep, hassign, alookup_append, hnone]
  simp [alookup, qCount, create_spss_variable_names, ← hS]

theorem claim2_witness :
    isUUIDLike "00000000-0000-0000-0000-000000000000" = true ∧
      "00000000-0000-0000-0000-000000000000" ∉ ["Schl_1"] ∧
      alookup "00000000-0000-0000-0000-000000000000"
        (create_spss_variable_names
          (["Schl_1"] ++ ["00000000-0000-0000-0000-000000000000"])) =
        some ("Q" ++ padZero3
          (qCount (create_spss_variable_names ["Schl_1"]) + 1)) :=
  ⟨by decide, by decide,
    claim2_uuid_counter ["Schl_1"] "00000000-0000-0000-0000-000000000000"
      (by decide) (by decide)⟩

/-- C2 counterexample: with the non-UUID key `"Qx"` (kept unchanged by the
already-valid rule) preceding it, the first UUID-shaped key receives `"Q002"`
rather than the claimed `"Q001"` — the ordinal is not independent of
interleaved non-UUID keys. -/
theorem claim2_counterexample :
    alookup "00000000-0000-0000-0000-000000000000"
        (create_spss_variable_names
          ["Qx", "00000000-0000-0000-0000-000000000000"]) = some "Q002" ∧
      ("Q002" : String) ≠ "Q001" := by
  decide

/-! ## Response-flattening lemmas and claims C4, C5, C3 -/

theorem processAnswers_eq (m : Mappings) (names : List (String × String))
    (as : List Answer) (row : Row) :
    processAnswers m names as row =
      match mapE (resolveAnswer m) as with
      | Except.error e => Except.error e
      | Except.ok os => Except.ok (os.foldl (applyAnswer names) row) := by
  induction as generalizing row with
  | nil => rfl
  | cons a rest ih =>
    simp only [processAnswers, mapE]
    rcases ha : resolveAnswer m a with e | o
    · rfl
    · simp only [ih]
      rcases hr : mapE (resolveAnswer m) rest with e | os <;> rfl

theorem mapE_ok_map_resolve (m : Mappings) (as : List Answer)
    (os : List (Option (String × Cell)))
    (h : mapE (resolveAnswer m) as = Except.ok os) :
    os = as.map (resolveOpt m) := by
  induction as generalizing os with
  | nil =>
    simp only [mapE, Except.ok.injEq] at h
    simp [← h]
  | cons a rest ih =>
    simp only [mapE] at h
    rcases ha : resolveAnswer m a with e | o
    · rw [ha] at h
      simp at h
    · rw [ha] at h
      rcases hr : mapE (resolveAnswer m) rest with e | os'
      · rw [hr] at h
        simp at h
      · rw [hr] at h
        simp only [Except.ok.injEq] at h
        subst h
        simp [resolveOpt, ha, ih os' hr]

theorem foldl_apply_lookup (names : List (String × String)) (col : String)
    (os : List (Option (String × Cell))) (row0 : Row) :
    alookup col (os.foldl (applyAnswer names) row0) =
      match lastWrite names col os with
      | some v => some v
      | none => alookup col row0 := by
  induction os generalizing row0 with
  | nil => simp [lastWrite]
  | cons o rest ih =>
    rw [List.foldl_cons, ih]
    rcases hl : lastWrite names col rest with _ | v
    · simp only [lastWrite, hl]
      rcases o with _ | ⟨k, v⟩
      · simp [applyAnswer]
      · simp only [applyAnswer]
        rw [alookup_dinsert]
        by_cases hc : colOf names k = col
        · simp [hc]
        · have hc2 : ¬(col = colOf names k) := fun h2 => hc h2.symm
          simp [hc, hc2]
    · simp [lastWrite, hl]

theorem resolveOpt_some (m : Mappings) (a : Answer) (k : String) (v : Cell)
    (h : resolveOpt m a = some (k, v)) :
    resolveAnswer m a = Except.ok (some (k, v)) := by
  unfold resolveOpt at h
  rcases ha : resolveAnswer m a with e | o
  · rw [ha] at h
    simp at h
  · rw [ha] at h
    simp at h
    rw [h]

theorem resolveAnswer_ok (m : Mappings) (a : Answer) (h : hasRequiredIds a) :
    ∃ o, resolveAnswer m a = Except.ok o := by
  rcases hres : resolveAnswer m a with e | o
  · exfalso
    unfold resolveAnswer at hres
    split at hres
    · rename_i h1
      rcases hrid : a.row_id with _ | rid
      · have hsome := h.1 h1
        rw [hrid] at hsome
        simp at hsome
      · rw [hrid] at hres
        simp at hres
    · split at hres
      · simp at hres
      · split at hres
        · rename_i h1 h2 h3
          rcases heid : a.element_id with _ | eid
          · have hsome := h.2 (Or.inl h3)
            rw [heid] at hsome
            simp at hsome
          · rw [heid] at hres
            simp at hres
        · split at hres
          · rename_i h1 h2 h3 h4
            rcases heid : a.element_id with _ | eid
            · have hsome := h.2 (Or.inr h4)
              rw [heid] at hsome
              simp at hsome
            · rw [heid] at hres
              simp at hres
          · simp at hres
  · exact ⟨o, rfl⟩

theorem processAnswers_ok (m : Mappings) (names : List (String × String))
    (as : List Answer) (row : Row) (h : ∀ a ∈ as, hasRequiredIds a) :
    ∃ row2, processAnswers m names as row = Except.ok row2 := by
  induction as generalizing row with
  | nil => exact ⟨row, rfl⟩
  | cons a rest ih =>
    obtain ⟨o, ho⟩ := resolveAnswer_ok m a (h a (List.mem_cons_self a rest))
    obtain ⟨row2, hrow2⟩ :=
      ih (applyAnswer names row o) (fun a2 ha2 => h a2 (List.mem_cons_of_mem a ha2))
    exact ⟨row2, by simp [processAnswers, ho, hrow2]⟩

theorem processAnswers_dropped (m : Mappings) (names : List (String × String))
    (as : List Answer) (row : Row)
    (h : ∀ a ∈ as, resolveAnswer m a = Except.ok none) :
    processAnswers m names as row = Except.ok row := by
  induction as generalizing row with
  | nil => rfl
  | cons a rest ih =>
    have ha := h a (List.mem_cons_self a rest)
    simp only [processAnswers, ha]
    exact ih row (fun a2 ha2 => h a2 (List.mem_cons_of_mem a ha2))

theorem mapE_ok {α β : Type} (f : α → Except Unit β) (xs : List α)
    (h : ∀ x ∈ xs, ∃ y, f x = Except.ok y) :
    ∃ ys, mapE f xs = Except.ok ys := by
  induction xs with
  | nil => exact ⟨[], rfl⟩
  | cons x rest ih =>
    obtain ⟨y, hy⟩ := h x (List.mem_cons_self x rest)
    obtain ⟨ys, hys⟩ := ih (fun x2 hx2 => h x2 (List.mem_cons_of_mem x hx2))
    exact ⟨y :: ys, by simp [mapE, hy, hys]⟩

/-- C4: `process_responses` never raises provided every `matrix` answer
carries a `row_id` and every `number` / `text` answer carries an
`element_id` — and an answer with an unknown discriminator, a failed index
lookup, or an absent value is dropped, leaving the seeded defaults in place.
(The original claim, that no malformed individual answer ever raises, fails:
a `matrix` / `number` / `text` answer missing its id field is a direct
subscript and raises `KeyError`; see the counterexample.) -/
theorem claim4_no_raise_with_ids (responses : List Response) (m : Mappings)
    (h : ∀ r ∈ responses, ∀ a ∈ r.answers, hasRequiredIds a) :
    (∃ out, process_responses responses m = Except.ok out) ∧
      (∀ r : Response, ∀ names : List (String × String),
        (∀ a ∈ r.answers, resolveAnswer m a = Except.ok none) →
        processOne m names r = Except.ok (seedRow names m.questions r)) := by
  constructor
  · obtain ⟨rows, hrows⟩ :=
      mapE_ok (processOne m (create_spss_variable_names (m.questions.map Prod.fst)))
        responses
        (fun r hr => processAnswers_ok m _ r.answers _ (h r hr))
    refine ⟨(rows, create_spss_variable_names (m.questions.map Prod.fst)), ?_⟩
    simp only [process_responses]
    rw [hrows]
  · intro r names hdrop
    exact processAnswers_dropped m names r.answers _ hdrop

theorem claim4_witness :
    (∀ r ∈ [rMalformedOk], ∀ a ∈ r.answers, hasRequiredIds a) ∧
      ((∃ out, process_responses [rMalformedOk] mNum = Except.ok out) ∧
        (∀ r : Response, ∀ names : List (String × String),
          (∀ a ∈ r.answers, resolveAnswer mNum a = Except.ok none) →
          processOne mNum names r = Except.ok (seedRow names mNum.questions r))) :=
  ⟨by decide, claim4_no_raise_with_ids [rMalformedOk] mNum (by decide)⟩

/-- C4 counterexample: a single `matrix` answer with no `row_id` field makes
`process_responses` raise (`KeyError` from the direct subscript on source
line 212), so flattening does not tolerate every malformed individual
answer. -/
theorem claim4_counterexample :
    process_responses
        [{ id := Cell.int 1,
           answers := [{ type := "matrix", value := some (Cell.int 2) : Answer }] :
           Response }]
        { questions := [], id_to_key := [], value_labels := [],
          choice_to_key := [], element_to_key := [], measurement_types := [] } =
      Except.error () := by
  rfl

/-- C5: within one response, when several answers resolve to the same column,
the value of the last one in answer-list order is what the produced row
holds (`lastWrite` scans the resolved writes from the back). -/
theorem claim5_last_answer_wins (m : Mappings) (r : Response) (row : Row)
    (col : String) (v : Cell)
    (hok : processOne m (namesOf m) r = Except.ok row)
    (hlast : lastWrite (namesOf m) col (r.answers.map (resolveOpt m)) = some v) :
    alookup col row = some v := by
  unfold processOne at hok
  rw [processAnswers_eq] at hok
  rcases hm : mapE (resolveAnswer m) r.answers with e | os
  · rw [hm] at hok
    exact absurd hok (by simp)
  · rw [hm] at hok
    simp only [Except.ok.injEq] at hok
    have hos : os = r.answers.map (resolveOpt m) := mapE_ok_map_resolve m _ _ hm
    subst hok
    rw [foldl_apply_lookup, hos, hlast]

theorem claim5_witness :
    (processOne mNum (namesOf mNum) rTwoNumbers =
        Except.ok [("response_id", Cell.int 1), ("created_at", Cell.null),
                   ("k", Cell.int 9)]) ∧
      (lastWrite (namesOf mNum) "k" (rTwoNumbers.answers.map (resolveOpt mNum)) =
        some (Cell.int 9)) ∧
      alookup "k" [("response_id", Cell.int 1), ("created_at", Cell.null),
                   ("k", Cell.int 9)] = some (Cell.int 9) :=
  ⟨by rfl, by rfl,
    claim5_last_answer_wins mNum rTwoNumbers
      [("response_id", Cell.int 1), ("created_at", Cell.null), ("k", Cell.int 9)]
      "k" (Cell.int 9) (by rfl) (by rfl)⟩

theorem seed_fold_eq (names : List (String × String))
    (qs : List (String × QuestionDef)) :
    ∀ row0 : Row,
      (qs.map (fun kq => colOf names kq.1)).Nodup →
      (∀ kq ∈ qs, colOf names kq.1 ∉ row0.map Prod.fst) →
      qs.foldl
          (fun row kq => dinsert (colOf names kq.1) (defaultCell kq.2.type) row)
          row0 =
        row0 ++ qs.map (fun kq => (colOf names kq.1, defaultCell kq.2.type)) := by
  induction qs with
  | nil =>
    intro row0 _ _
    simp
  | cons kq rest ih =>
    intro row0 hnd hfresh
    simp only [List.map_cons, List.nodup_cons] at hnd
    have hfresh2 : ∀ kq2 ∈ rest, colOf names kq2.1 ∉
        (row0 ++ [(colOf names kq.1, defaultCell kq.2.type)]).map Prod.fst := by
      intro kq2 hkq2
      simp only [List.map_append, List.map_cons, List.map_nil, List.mem_append,
        List.mem_singleton]
      push_neg
      refine ⟨hfresh kq2 (List.mem_cons_of_mem _ hkq2), ?_⟩
      intro heq
      exact hnd.1 (heq ▸ List.mem_map.mpr ⟨kq2, hkq2, rfl⟩)
    rw [List.foldl_cons,
      dinsert_of_not_mem _ (hfresh kq (List.mem_cons_self _ _)),
      ih _ hnd.2 hfresh2]
    simp

theorem foldl_apply_map_fst (names : List (String × String))
    (os : List (Option (String × Cell))) :
    ∀ row0 : Row,
      (∀ o ∈ os, ∀ k v, o = some (k, v) → colOf names k ∈ row0.map Prod.fst) →
      (os.foldl (applyAnswer names) row0).map Prod.fst = row0.map Prod.fst := by
  induction os with
  | nil =>
    intro row0 _
    rfl
  | cons o rest ih =>
    intro row0 h
    have hfst : (applyAnswer names row0 o).map Prod.fst = row0.map Prod.fst := by
      rcases o with _ | ⟨k, v⟩
      · rfl
      · exact map_fst_dinsert_of_mem _ (h _ (List.mem_cons_self _ _) k v rfl)
    have h2 : ∀ o2 ∈ rest, ∀ k v, o2 = some (k, v) →
        colOf names k ∈ (applyAnswer names row0 o).map Prod.fst := by
      intro o2 ho2 k v heq
      rw [hfst]
      exact h o2 (List.mem_cons_of_mem _ ho2) k v heq
    rw [List.foldl_cons, ih _ h2, hfst]

theorem lastWrite_none (names : List (String × String)) (col : String)
    (os : List (Option (String × Cell)))
    (h : ∀ o ∈ os, ∀ k v, o = some (k, v) → colOf names k ≠ col) :
    lastWrite names col os = none := by
  induction os with
  | nil => rfl
  | cons o rest ih =>
    simp only [lastWrite]
    rw [ih (fun o2 ho2 => h o2 (List.mem_cons_of_mem _ ho2))]
    rcases o with _ | ⟨k, v⟩
    · rfl
    · simp [h _ (List.mem_cons_self _ _) k v rfl]

theorem resolveAnswer_write_mem (m : Mappings) (a : Answer) (k : String)
    (v : Cell) (h : resolveAnswer m a = Except.ok (some (k, v))) :
    k ∈ m.id_to_key.map Prod.snd ∨ k ∈ m.choice_to_key.map Prod.snd ∨
      k ∈ m.element_to_key.map Prod.snd := by
  unfold resolveAnswer at h
  split at h
  · rcases hrid : a.row_id with _ | rid
    · rw [hrid] at h
      simp at h
    · rw [hrid] at h
      simp only [Except.ok.injEq] at h
      obtain ⟨k1, hk1, hmap⟩ := Option.bind_eq_some.mp h
      obtain ⟨v1, _, hpair⟩ := Option.map_eq_some'.mp hmap
      have hk : k1 = k := congrArg Prod.fst hpair
      exact Or.inl (List.mem_map.mpr ⟨(toString rid, k1), alookup_mem hk1, hk⟩)
  · split at h
    · simp only [Except.ok.injEq] at h
      obtain ⟨k1, hk1, hmap⟩ := Option.bind_eq_some.mp h
      obtain ⟨v1, _, hpair⟩ := Option.map_eq_some'.mp hmap
      have hk : k1 = k := congrArg Prod.fst hpair
      exact Or.inr (Or.inl
        (List.mem_map.mpr ⟨(strOpt a.choice_id, k1), alookup_mem hk1, hk⟩))
    · split at h
      · rcases heid : a.element_id with _ | eid
        · rw [heid] at h
          simp at h
        · rw [heid] at h
          simp only [Except.ok.injEq] at h
          obtain ⟨k1, hk1, hmap⟩ := Option.bind_eq_some.mp h
          obtain ⟨v1, _, hpair⟩ := Option.map_eq_some'.mp hmap
          have hk : k1 = k := congrArg Prod.fst hpair
          exact Or.inr (Or.inr
            (List.mem_map.mpr ⟨(toString eid, k1), alookup_mem hk1, hk⟩))
      · split at h
        · rcases heid : a.element_id with _ | eid
          · rw [heid] at h
            simp at h
          · rw [heid] at h
            simp only [Except.ok.injEq] at h
            obtain ⟨k1, hk1, hpair⟩ := Option.map_eq_some'.mp h
            have hk : k1 = k := congrArg Prod.fst hpair
            exact Or.inr (Or.inr
              (List.mem_map.mpr ⟨(toString eid, k1), alookup_mem hk1, hk⟩))
        · simp at h

/-- C3: provided the sanitized names of the registered keys are pairwise
distinct, none of them is `response_id` or `created_at`, and the three lookup
indices only target registered keys, every produced row consists of exactly
the two metadata columns followed by exactly one column per registered key
(under its sanitized name), and every question to which no answer resolves
holds its type default.  (The original claim, without the distinctness
proviso, fails: colliding keys share one column and a later key's default
overwrites an earlier one's; see the counterexample.) -/
theorem claim3_row_exact (m : Mappings) (r : Response) (row : Row)
    (hnodup : (m.questions.map Prod.fst).Nodup)
    (hinj : ∀ k1 ∈ m.questions.map Prod.fst, ∀ k2 ∈ m.questions.map Prod.fst,
      colOf (namesOf m) k1 = colOf (namesOf m) k2 → k1 = k2)
    (hmeta : ∀ k ∈ m.questions.map Prod.fst,
      colOf (namesOf m) k ≠ "response_id" ∧ colOf (namesOf m) k ≠ "created_at")
    (hwf : ∀ k ∈ m.id_to_key.map Prod.snd ++ m.choice_to_key.map Prod.snd ++
      m.element_to_key.map Prod.snd, k ∈ m.questions.map Prod.fst)
    (hok : processOne m (namesOf m) r = Except.ok row) :
    row.map Prod.fst =
      "response_id" :: "created_at" ::
        (m.questions.map Prod.fst).map (colOf (namesOf m)) ∧
      ∀ k q, (k, q) ∈ m.questions →
        (∀ a ∈ r.answers, ∀ v, resolveAnswer m a ≠ Except.ok (some (k, v))) →
        alookup (colOf (namesOf m) k) row = some (defaultCell q.type) := by
  have hcolnd : ((m.questions.map Prod.fst).map (colOf (namesOf m))).Nodup :=
    List.Nodup.map_on hinj hnodup
  have hqsnd : (m.questions.map (fun kq => colOf (namesOf m) kq.1)).Nodup := by
    rw [show (fun kq : String × QuestionDef => colOf (namesOf m) kq.1) =
      (colOf (namesOf m)) ∘ Prod.fst from rfl, ← List.map_map]
    exact hcolnd
  have hbase : dinsert "created_at" r.createdAt
      (dinsert "response_id" r.id ([] : Row)) =
      [("response_id", r.id), ("created_at", r.createdAt)] := by
    simp [dinsert]
  have hfresh : ∀ kq ∈ m.questions, colOf (namesOf m) kq.1 ∉
      ([("response_id", r.id), ("created_at", r.createdAt)] : Row).map Prod.fst := by
    intro kq hkq
    have hm := hmeta kq.1 (List.mem_map.mpr ⟨kq, hkq, rfl⟩)
    simp [hm.1, hm.2]
  have hseed : seedRow (namesOf m) m.questions r =
      [("response_id", r.id), ("created_at", r.createdAt)] ++
        m.questions.map
          (fun kq => (colOf (namesOf m) kq.1, defaultCell kq.2.type)) := by
    unfold seedRow
    rw [hbase]
    exact seed_fold_eq (namesOf m) m.questions _ hqsnd hfresh
  unfold processOne at hok
  rw [processAnswers_eq] at hok
  rcases hm : mapE (resolveAnswer m) r.answers with e | os
  · rw [hm] at hok
    simp at hok
  · rw [hm] at hok
    simp only [Except.ok.injEq] at hok
    subst hok
    have hos := mapE_ok_map_resolve m _ _ hm
    have hwrites : ∀ o ∈ os, ∀ k v, o = some (k, v) →
        colOf (namesOf m) k ∈ (seedRow (namesOf m) m.questions r).map Prod.fst := by
      intro o ho k v heq
      subst heq
      rw [hos] at ho
      obtain ⟨a, ha, hres⟩ := List.mem_map.mp ho
      have hra := resolveOpt_some m a k v hres
      have hkmem : k ∈ m.questions.map Prod.fst := by
        apply hwf
        rcases resolveAnswer_write_mem m a k v hra with h1 | h1 | h1 <;>
          simp [h1]
      obtain ⟨kq, hkq, hfsteq⟩ := List.mem_map.mp hkmem
      rw [hseed]
      simp only [List.map_append, List.mem_append]
      right
      rw [List.map_map]
      exact List.mem_map.mpr ⟨kq, hkq, by simp [hfsteq]⟩
    constructor
    · rw [foldl_apply_map_fst (namesOf m) os _ hwrites, hseed]
      simp [List.map_map]
    · intro k q hkq hnores
      have hkmem : k ∈ m.questions.map Prod.fst :=
        List.mem_map.mpr ⟨(k, q), hkq, rfl⟩
      have hnowrite : lastWrite (namesOf m) (colOf (namesOf m) k) os = none := by
        apply lastWrite_none
        intro o ho k2 v heq hcol
        subst heq
        rw [hos] at ho
        obtain ⟨a, ha, hres⟩ := List.mem_map.mp ho
        have hra := resolveOpt_some m a k2 v hres
        have hk2mem : k2 ∈ m.questions.map Prod.fst := by
          apply hwf
          rcases resolveAnswer_write_mem m a k2 v hra with h1 | h1 | h1 <;>
            simp [h1]
        have hk2 : k2 = k := hinj k2 hk2mem k hkmem hcol
        subst hk2
        exact hnores a ha v hra
      rw [foldl_apply_lookup, hnowrite, hseed, alookup_append]
      have hmk := hmeta k hkmem
      have hb1 : ¬("response_id" = colOf (namesOf m) k) :=
        fun h2 => hmk.1 h2.symm
      have hb2 : ¬("created_at" = colOf (namesOf m) k) :=
        fun h2 => hmk.2 h2.symm
      have hbaselk : alookup (colOf (namesOf m) k)
          ([("response_id", r.id), ("created_at", r.createdAt)] : Row) = none := by
        simp [alookup, hb1, hb2]
      rw [hbaselk]
      apply alookup_of_mem_nodup
      · exact List.mem_map.mpr ⟨(k, q), hkq, rfl⟩
      · rw [show (m.questions.map
            (fun kq => (colOf (namesOf m) kq.1, defaultCell kq.2.type))).map Prod.fst
          = m.questions.map (fun kq => colOf (namesOf m) kq.1) from by
          rw [List.map_map]; rfl]
        exact hqsnd

theorem claim3_witness :
    (mW3.questions.map Prod.fst).Nodup ∧
      (∀ k1 ∈ mW3.questions.map Prod.fst, ∀ k2 ∈ mW3.questions.map Prod.fst,
        colOf (namesOf mW3) k1 = colOf (namesOf mW3) k2 → k1 = k2) ∧
      (∀ k ∈ mW3.questions.map Prod.fst,
        colOf (namesOf mW3) k ≠ "response_id" ∧
          colOf (namesOf mW3) k ≠ "created_at") ∧
      (∀ k ∈ mW3.id_to_key.map Prod.snd ++ mW3.choice_to_key.map Prod.snd ++
        mW3.element_to_key.map Prod.snd, k ∈ mW3.questions.map Prod.fst) ∧
      (processOne mW3 (namesOf mW3) rW3 =
        Except.ok [("response_id", Cell.int 1), ("created_at", Cell.null),
                   ("Q1", Cell.int 2), ("Q2", Cell.int (-999))]) ∧
      ([("response_id", Cell.int 1), ("created_at", Cell.null),
        ("Q1", Cell.int 2), ("Q2", Cell.int (-999))].map Prod.fst =
          "response_id" :: "created_at" ::
            (mW3.questions.map Prod.fst).map (colOf (namesOf mW3)) ∧
        ∀ k q, (k, q) ∈ mW3.questions →
          (∀ a ∈ rW3.answers, ∀ v,
            resolveAnswer mW3 a ≠ Except.ok (some (k, v))) →
          alookup (colOf (namesOf mW3) k)
            [("response_id", Cell.int 1), ("created_at", Cell.null),
             ("Q1", Cell.int 2), ("Q2", Cell.int (-999))] =
            some (defaultCell q.type)) :=
  ⟨by decide, by decide, by decide, by decide, by rfl,
    claim3_row_exact mW3 rW3
      [("response_id", Cell.int 1), ("created_at", Cell.null),
       ("Q1", Cell.int 2), ("Q2", Cell.int (-999))]
      (by decide) (by decide) (by decide) (by decide) (by rfl)⟩

/-- C3 counterexample: in the registry built from `pagesC3` the Text key
`a-b` sanitizes to `a_b`, the very name of the Number key `a_b`.  A response
with no answers yields a row with a single shared question column holding
`-999`, so the Text question neither has its own entry nor holds its empty
string default, and the row has three columns rather than the claimed four. -/
theorem claim3_counterexample :
    mC3.questions.map Prod.fst = ["a-b", "a_b"] ∧
      alookup "a-b" mC3.questions =
        some { type := "Text", text := "T", id := 1 } ∧
      alookup "a-b" (namesOf mC3) = some "a_b" ∧
      processOne mC3 (namesOf mC3) { id := Cell.int 7 } =
        Except.ok [("response_id", Cell.int 7), ("created_at", Cell.null),
                   ("a_b", Cell.int (-999))] ∧
      Cell.int (-999) ≠ Cell.str "" :=
  ⟨rfl, rfl, rfl, rfl, by decide⟩

/-! ## Claim C10: registered bounds influence nothing after registration -/

theorem setBounds_keys (f g : String → Option Int) (m : Mappings) :
    (setBounds f g m).questions.map Prod.fst = m.questions.map Prod.fst := by
  simp only [setBounds, List.map_map]
  rfl

theorem resolveAnswer_setBounds (f g : String → Option Int) (m : Mappings)
    (a : Answer) : resolveAnswer (setBounds f g m) a = resolveAnswer m a := rfl

theorem seedRow_setBounds (f g : String → Option Int) (m : Mappings)
    (names : List (String × String)) (r : Response) :
    seedRow names (setBounds f g m).questions r = seedRow names m.questions r := by
  unfold seedRow setBounds
  rw [List.foldl_map]

theorem processAnswers_setBounds (f g : String → Option Int) (m : Mappings)
    (names : List (String × String)) (as : List Answer) :
    ∀ row : Row, processAnswers (setBounds f g m) names as row =
      processAnswers m names as row := by
  induction as with
  | nil =>
    intro row
    rfl
  | cons a rest ih =>
    intro row
    simp only [processAnswers, resolveAnswer_setBounds]
    cases resolveAnswer m a with
    | error e => rfl
    | ok o => exact ih _

/-- C10: the `min` / `max` bounds recorded for Number questions are never
enforced — rewriting the registered bounds arbitrarily leaves the entire
output of `process_responses` (every row and the name map) unchanged, so the
bounds influence no computation after registration, and a number answer's
value reaches the row uncapped. -/
theorem claim10_bounds_unused (f g : String → Option Int) (m : Mappings)
    (responses : List Response) :
    process_responses responses (setBounds f g m) =
      process_responses responses m := by
  have hone : ∀ r, processOne (setBounds f g m)
      (create_spss_variable_names (m.questions.map Prod.fst)) r =
      processOne m (create_spss_variable_names (m.questions.map Prod.fst)) r := by
    intro r
    unfold processOne
    rw [seedRow_setBounds, processAnswers_setBounds]
  simp only [process_responses]
  rw [setBounds_keys]
  rw [show processOne (setBounds f g m)
      (create_spss_variable_names (m.questions.map Prod.fst)) =
    processOne m (create_spss_variable_names (m.questions.map Prod.fst)) from
    funext hone]

/-! ## Claim C6: dataset type coercion -/

/-- C6: after the coercion loop, every text column is string-valued with
missing values becoming the empty string, and every other non-metadata
column is integer-valued with every value that fails numeric coercion
becoming `-999`. -/
theorem claim6_column_coercion (tv : List String)
    (cols : List (String × List Cell)) (c : String) (vs : List Cell)
    (hmem : (c, vs) ∈ cols) :
    (c ∈ tv →
      (c, vs.map coerceTextCell) ∈ coerceColumns tv cols ∧
        (∀ x ∈ vs.map coerceTextCell, ∃ s, x = Cell.str s) ∧
        coerceTextCell Cell.null = Cell.str "") ∧
      (c ∉ tv → c ≠ "response_id" → c ≠ "created_at" →
        (c, vs.map coerceNumCell) ∈ coerceColumns tv cols ∧
          (∀ x ∈ vs.map coerceNumCell, ∃ n, x = Cell.int n) ∧
          (∀ x ∈ vs, numParse x = none → coerceNumCell x = Cell.int (-999))) := by
  constructor
  · intro htv
    refine ⟨?_, ?_, rfl⟩
    · have heq : (fun cv : String × List Cell =>
          if cv.1 ∈ tv then (cv.1, cv.2.map coerceTextCell)
          else if cv.1 = "response_id" ∨ cv.1 = "created_at" then cv
          else (cv.1, cv.2.map coerceNumCell)) (c, vs) =
          (c, vs.map coerceTextCell) := by
        simp [htv]
      exact heq ▸ List.mem_map_of_mem _ hmem
    · intro x hx
      obtain ⟨y, _, rfl⟩ := List.mem_map.mp hx
      cases y <;> exact ⟨_, rfl⟩
  · intro htv h1 h2
    refine ⟨?_, ?_, ?_⟩
    · have heq : (fun cv : String × List Cell =>
          if cv.1 ∈ tv then (cv.1, cv.2.map coerceTextCell)
          else if cv.1 = "response_id" ∨ cv.1 = "created_at" then cv
          else (cv.1, cv.2.map coerceNumCell)) (c, vs) =
          (c, vs.map coerceNumCell) := by
        simp [htv, h1, h2]
      exact heq ▸ List.mem_map_of_mem _ hmem
    · intro x hx
      obtain ⟨y, _, rfl⟩ := List.mem_map.mp hx
      exact ⟨_, rfl⟩
    · intro x _ hparse
      simp [coerceNumCell, hparse]

theorem claim6_witness :
    (("n", [Cell.str "a", Cell.null]) ∈
        ([("t", [Cell.null]), ("n", [Cell.str "a", Cell.null])] :
          List (String × List Cell))) ∧
      (("n" ∈ ["t"] →
        ("n", [Cell.str "a", Cell.null].map coerceTextCell) ∈
            coerceColumns ["t"] [("t", [Cell.null]), ("n", [Cell.str "a", Cell.null])] ∧
          (∀ x ∈ [Cell.str "a", Cell.null].map coerceTextCell, ∃ s, x = Cell.str s) ∧
          coerceTextCell Cell.null = Cell.str "") ∧
        ("n" ∉ ["t"] → "n" ≠ "response_id" → "n" ≠ "created_at" →
          ("n", [Cell.str "a", Cell.null].map coerceNumCell) ∈
              coerceColumns ["t"] [("t", [Cell.null]), ("n", [Cell.str "a", Cell.null])] ∧
            (∀ x ∈ [Cell.str "a", Cell.null].map coerceNumCell, ∃ n, x = Cell.int n) ∧
            (∀ x ∈ [Cell.str "a", Cell.null], numParse x = none →
              coerceNumCell x = Cell.int (-999)))) :=
  ⟨by decide,
    claim6_column_coercion ["t"] [("t", [Cell.null]), ("n", [Cell.str "a", Cell.null])]
      "n" [Cell.str "a", Cell.null] (by decide)⟩

/-! ## Fallback re-encoding lemmas and claims C7, C8 -/

theorem mem_foldl_unique (vs : List String) :
    ∀ (acc : List String) (x : String),
      (x ∈ vs.foldl (fun acc v => if v ∈ acc then acc else acc ++ [v]) acc) ↔
        x ∈ acc ∨ x ∈ vs := by
  induction vs with
  | nil =>
    intro acc x
    simp
  | cons v rest ih =>
    intro acc x
    rw [List.foldl_cons, ih]
    by_cases hv : v ∈ acc
    · rw [if_pos hv]
      simp only [List.mem_cons]
      constructor
      · rintro (h | h)
        · exact Or.inl h
        · exact Or.inr (Or.inr h)
      · rintro (h | h | h)
        · exact Or.inl h
        · exact Or.inl (h ▸ hv)
        · exact Or.inr h
    · rw [if_neg hv]
      simp only [List.mem_append, List.mem_singleton, List.mem_cons]
      tauto

theorem mem_uniqueList (vs : List String) (x : String) :
    x ∈ uniqueList vs ↔ x ∈ vs := by
  unfold uniqueList
  rw [mem_foldl_unique]
  simp

theorem nodup_foldl_unique (vs : List String) :
    ∀ acc : List String, acc.Nodup →
      (vs.foldl (fun acc v => if v ∈ acc then acc else acc ++ [v]) acc).Nodup := by
  induction vs with
  | nil =>
    intro acc h
    exact h
  | cons v rest ih =>
    intro acc h
    rw [List.foldl_cons]
    by_cases hv : v ∈ acc
    · rw [if_pos hv]
      exact ih acc h
    · rw [if_neg hv]
      refine ih _ ?_
      simp [List.nodup_append, h, hv]

theorem nodup_uniqueList (vs : List String) : (uniqueList vs).Nodup :=
  nodup_foldl_unique vs [] List.nodup_nil

theorem alookup_enumCodes (l : List String) (t : String) (ht : t ≠ "") :
    ∀ k : Nat, t ∈ l →
      alookup t (enumCodes k l) = some ((k + List.indexOf t l : Nat) : Int) := by
  induction l with
  | nil =>
    intro k h
    simp at h
  | cons a rest ih =>
    intro k hmem
    simp only [enumCodes]
    by_cases hta : t = a
    · subst hta
      rw [if_pos ht, List.indexOf_cons_self]
      simp [alookup]
    · have hant : a ≠ t := fun h2 => hta h2.symm
      have hidx : List.indexOf t (a :: rest) = List.indexOf t rest + 1 := by
        simpa using List.indexOf_cons_ne rest hant
      have hmem2 : t ∈ rest := by
        rcases List.mem_cons.mp hmem with h2 | h2
        · exact absurd h2 hta
        · exact h2
      by_cases ha : a = ""
      · rw [if_neg (by simp [ha]), ih (k + 1) hmem2, hidx]
        exact congrArg some (by omega)
      · rw [if_pos ha]
        simp only [alookup]
        rw [if_neg hant, ih (k + 1) hmem2, hidx]
        exact congrArg some (by omega)

theorem alookup_empty_enumCodes (l : List String) :
    ∀ k : Nat, alookup "" (enumCodes k l) = none := by
  induction l with
  | nil =>
    intro k
    rfl
  | cons a rest ih =>
    intro k
    simp only [enumCodes]
    by_cases ha : a = ""
    · rw [if_neg (by simp [ha])]
      exact ih (k + 1)
    · rw [if_pos ha]
      simp only [alookup]
      rw [if_neg ha]
      exact ih (k + 1)

theorem text_to_code_lookup (vs : List String) (v : String) (hv : v ∈ vs) :
    alookup v (text_to_code vs) = some (codeFn vs v) := by
  unfold text_to_code
  rw [alookup_append]
  by_cases hemp : v = ""
  · subst hemp
    rw [alookup_empty_enumCodes]
    simp [alookup, codeFn]
  · have hvu : v ∈ uniqueList vs := (mem_uniqueList vs v).mpr hv
    rw [alookup_enumCodes (uniqueList vs) v hemp 0 hvu]
    simp [codeFn, hemp]

/-- C7 (amended): the fallback assigns each cell text the code of its
first-appearance index among the column's distinct values — the empty string
(when it appears) consumes an index too, so the codes of the non-empty
values need not be consecutive — with the empty string itself fixed to
`-999`, and the column's values are replaced by these codes.  (The original
claim of dense consecutive codes for the non-empty values fails; see the
counterexample, where the codes are 0 and 2.) -/
theorem claim7_fallback_codes (vs : List String) :
    encodeColumn vs = vs.map (codeFn vs) ∧
      alookup "" (text_to_code vs) = some (-999) := by
  constructor
  · unfold encodeColumn
    apply List.map_congr_left
    intro v hv
    unfold encodeCell
    rw [text_to_code_lookup vs v hv]
    rfl
  · unfold text_to_code
    rw [alookup_append, alookup_empty_enumCodes]
    rfl

/-- C7 counterexample: in the column `["a", "", "b"]` the empty string
occupies enumeration index 1, so the two distinct non-empty values receive
the codes 0 and 2 — not dense consecutive codes — and no value receives
code 1. -/
theorem claim7_counterexample :
    alookup "a" (text_to_code ["a", "", "b"]) = some 0 ∧
      alookup "b" (text_to_code ["a", "", "b"]) = some 2 ∧
      (∀ p ∈ text_to_code ["a", "", "b"], p.2 ≠ 1) ∧
      encodeColumn ["a", "", "b"] = [0, -999, 2] := by
  decide

theorem code_to_text_append (l1 l2 : List (String × Int)) :
    code_to_text (l1 ++ l2) = code_to_text l1 ++ code_to_text l2 := by
  induction l1 with
  | nil => rfl
  | cons p rest ih =>
    obtain ⟨t, c⟩ := p
    show code_to_text ((t, c) :: (rest ++ l2)) =
      code_to_text ((t, c) :: rest) ++ code_to_text l2
    simp only [code_to_text]
    by_cases ht : t = ""
    · rw [if_neg (by simp [ht]), if_neg (by simp [ht])]
      exact ih
    · rw [if_pos ht, if_pos ht, ih]
      rfl

theorem alookup_code_to_text_enumCodes (l : List String) :
    ∀ (k i : Nat) (h : i < l.length), l.get ⟨i, h⟩ ≠ "" →
      alookup ((k + i : Nat) : Int) (code_to_text (enumCodes k l)) =
        some (l.get ⟨i, h⟩) := by
  induction l with
  | nil =>
    intro k i h
    simp at h
  | cons a rest ih =>
    intro k i h hne
    simp only [enumCodes]
    by_cases ha : a = ""
    · rw [if_neg (by simp [ha])]
      cases i with
      | zero => exact absurd ha hne
      | succ j =>
        have hj : j < rest.length := Nat.succ_lt_succ_iff.mp h
        have hkey : ((k + (j + 1) : Nat) : Int) = (((k + 1) + j : Nat) : Int) := by
          congr 1
          omega
        rw [hkey]
        exact ih (k + 1) j hj hne
    · rw [if_pos ha]
      simp only [code_to_text]
      rw [if_pos ha]
      cases i with
      | zero => simp [alookup]
      | succ j =>
        have hj : j < rest.length := Nat.succ_lt_succ_iff.mp h
        have hkeyne : ¬((k : Int) = ((k + (j + 1) : Nat) : Int)) := by
          push_cast
          omega
        simp only [alookup]
        rw [if_neg hkeyne]
        have hkey : ((k + (j + 1) : Nat) : Int) = (((k + 1) + j : Nat) : Int) := by
          congr 1
          omega
        rw [hkey]
        exact ih (k + 1) j hj hne

/-- C8: decoding a fallback-coded cell through the column's audit table
reproduces the original text exactly: every non-empty original value decodes
back to itself, and an originally empty cell is coded as the sentinel `-999`
(which the audit table deliberately omits) — empty string and `-999` are the
same "no value". -/
theorem claim8_roundtrip (vs : List String) (v : String) (hv : v ∈ vs) :
    (v ≠ "" →
      alookup (encodeCell (text_to_code vs) v) (code_to_text (text_to_code vs)) =
        some v) ∧
      (v = "" → encodeCell (text_to_code vs) v = -999) := by
  constructor
  · intro hne
    have hvu : v ∈ uniqueList vs := (mem_uniqueList vs v).mpr hv
    have hidx : (uniqueList vs).indexOf v < (uniqueList vs).length :=
      List.indexOf_lt_length.mpr hvu
    have hget : (uniqueList vs).get ⟨(uniqueList vs).indexOf v, hidx⟩ = v := by
      simp [List.getElem_indexOf hidx]
    have henc : encodeCell (text_to_code vs) v =
        ((uniqueList vs).indexOf v : Int) := by
      unfold encodeCell
      rw [text_to_code_lookup vs v hv]
      simp [codeFn, hne]
    rw [henc,
      show text_to_code vs = enumCodes 0 (uniqueList vs) ++ [("", -999)] from rfl,
      code_to_text_append,
      show code_to_text [("", -999)] = [] from rfl, List.append_nil]
    have hap := alookup_code_to_text_enumCodes (uniqueList vs) 0
      ((uniqueList vs).indexOf v) hidx (by rw [hget]; exact hne)
    rw [show (((uniqueList vs).indexOf v : Nat) : Int) =
      ((0 + (uniqueList vs).indexOf v : Nat) : Int) from by simp]
    rw [hap, hget]
  · intro hemp
    subst hemp
    unfold encodeCell
    rw [text_to_code_lookup vs "" hv]
    rfl

theorem claim8_witness :
    ("y" ∈ ["x", "", "y"]) ∧
      (("y" ≠ "" →
        alookup (encodeCell (text_to_code ["x", "", "y"]) "y")
          (code_to_text (text_to_code ["x", "", "y"])) = some "y") ∧
        ("y" = "" → encodeCell (text_to_code ["x", "", "y"]) "y" = -999)) :=
  ⟨by decide, claim8_roundtrip ["x", "", "y"] "y" (by decide)⟩

/-! ## Claim C9: the two-tier export and its frame -/

/-- C9 (amended): the fallback re-encoding works on a copy — for every
outcome of the two external writer calls, the export phase hands back the
assembler's coerced dataset and metadata unchanged, and it returns normally
even when both writes fail: the second failure is caught and reported as a
console note, not propagated.  (The original claim that the fallback failure
propagates to the caller fails; see the counterexample.) -/
theorem claim9_fallback_frame
    (w1 w2 : List (String × List Cell) → Except String Unit)
    (tv : List String) (d : AssembledData) :
    (exportPhase w1 w2 tv d).map ExportResult.data = Except.ok d := by
  unfold exportPhase
  cases w1 d.df with
  | ok u => rfl
  | error e =>
    cases w2 (fallbackColumns tv d.df).1 with
    | ok u => rfl
    | error e2 => rfl

/-- C9 counterexample: with both writer calls failing, the export phase
still returns normally (`Except.ok`) with the dataset and metadata intact —
the fallback failure is swallowed by the inner `except` (source lines
425-426), not propagated to the caller as the claim states. -/
theorem claim9_counterexample :
    exportPhase (fun _ => Except.error "text not representable")
        (fun _ => Except.error "disk full") []
        { df := [], column_labels := [], value_labels := [], measurement := [] } =
      Except.ok
        { data := { df := [], column_labels := [], value_labels := [],
                    measurement := [] },
          written := none, text_value_labels := [],
          combined_value_labels := some [] } := by
  rfl

end SurveyProc
